import Mathlib

/-!
Verification of the HLAggregator market-data core.

Shallow embedding of the exchange-aggregation subsystem:
the canonical market-data types (src/aggregator/types.rs), the dYdX
websocket orderbook reconstruction (src/aggregator/dydx.rs), the
Hyperliquid adapter queries (src/aggregator/hyperliquid.rs), the
supervisor backoff arithmetic of both adapters, and the USD-to-size
normalization in HyperliquidService::place_trade
(src/trading/hyperliquid_service.rs).

Prices, sizes and USD values are `f64` in the source; they are modelled
as rationals.  String fields that the source parses with
`str::parse::<f64>` are modelled post-parse as `Option ℚ` (`none` =
missing field or parse failure).  Wall-clock timestamps are passed in
explicitly.  Network and lock effects are modelled by passing the
fetched data / shared cell contents as arguments.
-/

open List

/-- A single price level (src/aggregator/types.rs `Level`). -/
structure Level where
  price : ℚ
  size : ℚ
  orders : ℕ
deriving DecidableEq

/-- Canonical orderbook (src/aggregator/types.rs `OrderBook`). -/
structure OrderBook where
  exchange : String
  symbol : String
  bids : List Level
  asks : List Level
  timestamp : ℕ
deriving DecidableEq

/-- Market summary (src/aggregator/types.rs `MarketSummary`). -/
structure MarketSummary where
  symbol : String
  price : ℚ
  volume_24h : ℚ
  open_interest : ℚ
  funding_rate : ℚ
deriving DecidableEq

/-- Leverage info (src/aggregator/types.rs `LeverageInfo`). -/
structure LeverageInfo where
  exchange : String
  symbol : String
  max_leverage : ℚ
deriving DecidableEq

/-- Error enum of src/error.rs; the local enum in
src/aggregator/hyperliquid.rs only has the `AssetNotFound` variant,
which this one also carries, so a single type models both. -/
inductive AggregatorError where
  | AssetNotFound (msg : String)
  | MarketDataNotFound (msg : String)
  | ExchangeError (msg : String)
  | ApiError (msg : String)
  | WebsocketError (msg : String)
deriving DecidableEq

instance {ε α : Type} [DecidableEq ε] [DecidableEq α] :
    DecidableEq (Except ε α)
  | Except.ok a, Except.ok b =>
      if h : a = b then isTrue (by rw [h])
      else isFalse (by intro he; cases he; exact h rfl)
  | Except.ok _, Except.error _ => isFalse (by intro h; cases h)
  | Except.error _, Except.ok _ => isFalse (by intro h; cases h)
  | Except.error e, Except.error f =>
      if h : e = f then isTrue (by rw [h])
      else isFalse (by intro he; cases he; exact h rfl)

/-- Bid comparator of dydx.rs: `sort_by(|a, b| b.price.partial_cmp(&a.price))`,
i.e. descending by price. -/
def bidOrder (a b : Level) : Prop := b.price ≤ a.price

/-- Ask comparator of dydx.rs: ascending by price. -/
def askOrder (a b : Level) : Prop := a.price ≤ b.price

instance : DecidableRel bidOrder :=
  fun a b => inferInstanceAs (Decidable (b.price ≤ a.price))

instance : DecidableRel askOrder :=
  fun a b => inferInstanceAs (Decidable (a.price ≤ b.price))

instance : IsTotal Level bidOrder := ⟨fun a b => le_total b.price a.price⟩

instance : IsTrans Level bidOrder := ⟨fun _ _ _ h1 h2 => le_trans h2 h1⟩

instance : IsTotal Level askOrder := ⟨fun a b => le_total a.price b.price⟩

instance : IsTrans Level askOrder := ⟨fun _ _ _ h1 h2 => le_trans h1 h2⟩

/-- The bid-side sort of dydx.rs (a stable sort; on a side with pairwise
distinct prices any sorting algorithm yields the same list). -/
def sortBids (l : List Level) : List Level := insertionSort bidOrder l

/-- The ask-side sort of dydx.rs. -/
def sortAsks (l : List Level) : List Level := insertionSort askOrder l

/-- One entry of a venue-A snapshot side: the parse results of its
"price" and "size" string fields. -/
structure SnapEntry where
  price : Option ℚ
  size : Option ℚ
deriving DecidableEq

/-- The filter_map body in update_orderbook_from_initial: a level is kept
only when both fields are present and parse; `orders` is hard-coded 1. -/
def parseSnapEntry (e : SnapEntry) : Option Level :=
  match e.price, e.size with
  | some p, some s => some ⟨p, s, 1⟩
  | _, _ => none

/-- The `contents` object of a dYdX `subscribed` orderbook message. -/
structure SnapContents where
  bids : List SnapEntry
  asks : List SnapEntry
deriving DecidableEq

/-- update_orderbook_from_initial (src/aggregator/dydx.rs lines 266-316):
parse both sides, sort bids descending and asks ascending, and install
the fresh book unconditionally.  `t` is the receiving-clock millisecond
timestamp taken at construction.  Zero sizes are not filtered. -/
def update_orderbook_from_initial (contents : SnapContents) (symbol : String)
    (t : ℕ) : OrderBook :=
  { exchange := "dYdX"
    symbol := symbol
    bids := sortBids (contents.bids.filterMap parseSnapEntry)
    asks := sortAsks (contents.asks.filterMap parseSnapEntry)
    timestamp := t }

/-- One two-element array of a dYdX `channel_data` delta: the parse
results of its price and size strings.  In the source an absent or
unparseable field degrades to `0.0` via `unwrap_or(0.0)`. -/
structure DeltaEntry where
  price : Option ℚ
  size : Option ℚ
deriving DecidableEq

/-- The `contents` object of a dYdX `channel_data` orderbook message
(arrays whose length is not 2 are skipped by the source and are not
represented). -/
structure UpdateContents where
  bids : List DeltaEntry
  asks : List DeltaEntry
deriving DecidableEq

/-- `iter_mut().find(|b| b.price == price)` followed by `existing.size =
size`: replace the size of the first level at price `p`. -/
def setFirstSize (p s : ℚ) : List Level → List Level
  | [] => []
  | l :: ls =>
      if l.price = p then { l with size := s } :: ls
      else l :: setFirstSize p s ls

/-- The per-delta body of update_orderbook_from_update: zero size removes
every level at that price; non-zero size replaces the size in place when
the price is present and pushes a new level otherwise. -/
def applyDeltaSide (side : List Level) (e : DeltaEntry) : List Level :=
  if e.size.getD 0 = 0 then
    side.filter (fun l => decide (l.price ≠ e.price.getD 0))
  else if side.any (fun l => decide (l.price = e.price.getD 0)) then
    setFirstSize (e.price.getD 0) (e.size.getD 0) side
  else side ++ [⟨e.price.getD 0, e.size.getD 0, 1⟩]

/-- update_orderbook_from_update (src/aggregator/dydx.rs lines 318-381):
a no-op when no book is present; otherwise apply all bid deltas, then
all ask deltas, re-sort both sides and refresh the timestamp.  The
source performs no crossed-book check and never drops the book. -/
def update_orderbook_from_update (book : Option OrderBook)
    (contents : UpdateContents) (t : ℕ) : Option OrderBook :=
  match book with
  | none => none
  | some b =>
      some { b with
        bids := sortBids (contents.bids.foldl applyDeltaSide b.bids)
        asks := sortAsks (contents.asks.foldl applyDeltaSide b.asks)
        timestamp := t }

/-- One processed post-snapshot orderbook message: delta contents plus
the receiving-clock timestamp at apply time. -/
def dydxStep (book : Option OrderBook) (m : UpdateContents × ℕ) :
    Option OrderBook :=
  update_orderbook_from_update book m.1 m.2

/-- The book materialized by the dYdX stream task after an initial
snapshot followed by a sequence of delta messages. -/
def dydxRun (snap : SnapContents) (symbol : String) (t0 : ℕ)
    (ms : List (UpdateContents × ℕ)) : Option OrderBook :=
  ms.foldl dydxStep (some (update_orderbook_from_initial snap symbol t0))

namespace DydxAggregator

/-- DydxAggregator::get_orderbook (dydx.rs lines 176-184): the symbol
parameter is bound as `_symbol` in the source and never read; the cached
book is cloned out, and its absence is an error. -/
def get_orderbook (_symbol : String) (current_orderbook : Option OrderBook) :
    Except AggregatorError OrderBook :=
  match current_orderbook with
  | some book => Except.ok book
  | none =>
      Except.error (AggregatorError.MarketDataNotFound
        ("No orderbook data available"))

/-- DydxAggregator::get_market_summary (dydx.rs lines 155-163): same
shape, symbol parameter unused. -/
def get_market_summary (_symbol : String)
    (current_summary : Option MarketSummary) :
    Except AggregatorError MarketSummary :=
  match current_summary with
  | some s => Except.ok s
  | none =>
      Except.error (AggregatorError.MarketDataNotFound
        ("No market data available"))

end DydxAggregator

/-- hyperliquid_rust_sdk book level after string-field parsing: `px` and
`sz` parse results, order count `n` copied. -/
structure WireBookLevel where
  px : Option ℚ
  sz : Option ℚ
  n : ℕ
deriving DecidableEq

/-- convert_levels_from_book (src/aggregator/hyperliquid.rs lines
258-266): parse failures degrade to 0 via `unwrap_or(0.0)`; sizes are
copied verbatim, zero included. -/
def convert_levels_from_book (levels : List WireBookLevel) : List Level :=
  levels.map fun l => ⟨l.px.getD 0, l.sz.getD 0, l.n⟩

/-- convert_levels (hyperliquid.rs lines 268-276): identical body, slice
variant used by the REST snapshot path. -/
def convert_levels (levels : List WireBookLevel) : List Level :=
  levels.map fun l => ⟨l.px.getD 0, l.sz.getD 0, l.n⟩

/-- An L2 snapshot REST response: `levels[0]` bids, `levels[1]` asks. -/
structure L2Snapshot where
  levels : List (List WireBookLevel)
  time : ℕ
deriving DecidableEq

/-- Asset-universe metadata entry (hyperliquid.rs `AssetMeta`). -/
structure AssetMeta where
  name : String
  maxLeverage : ℕ
  szDecimals : ℕ
deriving DecidableEq

namespace HyperliquidAggregator

/-- HyperliquidAggregator::get_orderbook (hyperliquid.rs lines 194-204):
issues a fresh `l2_snapshot` REST call (its response is `snap`) and
converts it.  The cached stream book `_current_orderbook` held in
`&self` is never consulted, and there is no not-ready failure path:
a missing side becomes an empty list via `unwrap_or_default`. -/
def get_orderbook (_current_orderbook : Option OrderBook) (symbol : String)
    (snap : L2Snapshot) : Except AggregatorError OrderBook :=
  Except.ok
    { exchange := "Hyperliquid"
      symbol := symbol
      bids := convert_levels ((snap.levels.get? 0).getD [])
      asks := convert_levels ((snap.levels.get? 1).getD [])
      timestamp := snap.time }

/-- HyperliquidAggregator::get_leverage_info (hyperliquid.rs lines
163-192): look the symbol up by name in the (cached or freshly fetched)
universe metadata; an absent symbol fails with AssetNotFound. -/
def get_leverage_info (univ : List AssetMeta) (symbol : String) :
    Except AggregatorError LeverageInfo :=
  match univ.find? (fun a => decide (a.name = symbol)) with
  | some asset =>
      Except.ok
        { exchange := "Hyperliquid"
          symbol := symbol
          max_leverage := (asset.maxLeverage : ℚ) }
  | none =>
      Except.error (AggregatorError.AssetNotFound
        ("Symbol not found: " ++ symbol))

end HyperliquidAggregator

namespace DydxAggregator

/-- DydxAggregator::get_leverage_info (dydx.rs lines 165-174): delegate
to the Hyperliquid adapter over the same universe metadata, relabel the
exchange tag, propagate its error unchanged. -/
def get_leverage_info (univ : List AssetMeta) (symbol : String) :
    Except AggregatorError LeverageInfo :=
  match HyperliquidAggregator.get_leverage_info univ symbol with
  | Except.ok hl =>
      Except.ok
        { exchange := "dYdX"
          symbol := symbol
          max_leverage := hl.max_leverage }
  | Except.error e => Except.error e

end DydxAggregator

/-- Hyperliquid supervisor backoff (hyperliquid.rs line 120): after a
failed subscribe, wait `min(consecutive_errors * 5, 30)` seconds. -/
def hl_backoff_wait (consecutive_errors : ℕ) : ℕ :=
  min (consecutive_errors * 5) 30

/-- Evolution of `consecutive_errors` across connection attempts in the
Hyperliquid supervisor loop: reset to 0 on a successful subscribe,
incremented on failure (before the wait is computed). -/
def hl_attempts_step (consecutive_errors : ℕ) (ok : Bool) : ℕ :=
  if ok then 0 else consecutive_errors + 1

/-- dYdX supervisor reconnect wait (dydx.rs line 124): a constant one
second regardless of the attempt count. -/
def dydx_reconnect_wait : ℕ := 1

/-- Order kind (src/trading/mod.rs `OrderType`). -/
inductive OrderType where
  | Market
  | Limit
deriving DecidableEq

/-- TradeRequest (src/trading/mod.rs). -/
structure TradeRequest where
  asset : String
  is_buy : Bool
  order_type : OrderType
  usd_value : ℚ
  price : Option ℚ
  leverage : ℕ
  cross_margin : Option Bool
  reduce_only : Bool
deriving DecidableEq

/-- The order payload handed to `exchange_client.order`, with the
time-in-force string of its `ClientOrder::Limit` wrapper. -/
structure ClientOrderRequest where
  asset : String
  is_buy : Bool
  reduce_only : Bool
  limit_px : ℚ
  sz : ℚ
  tif : String
deriving DecidableEq

/-- `f64::round`: nearest integer, ties rounded away from zero. -/
def roundHalfAway (x : ℚ) : ℤ :=
  if 0 ≤ x then ⌊x + 1 / 2⌋ else -⌊-x + 1 / 2⌋

/-- `(size * 10f64.powi(d)).round() / 10f64.powi(d)`. -/
def roundToDecimals (x : ℚ) (d : ℕ) : ℚ :=
  ((roundHalfAway (x * 10 ^ d) : ℚ)) / 10 ^ d

/-- `orderbook.levels.get(i).and_then(|levels| levels.first())` followed
by the px parse: outer `none` = side missing or empty, inner `none` =
parse failure. -/
def headPx (sides : List (List WireBookLevel)) (i : ℕ) : Option (Option ℚ) :=
  ((sides.get? i).bind List.head?).map WireBookLevel.px

namespace HyperliquidService

/-- HyperliquidService::place_trade (src/trading/hyperliquid_service.rs
lines 37-135).  `univ` is the fetched meta, `snap` the fetched L2
snapshot.  The result is the ClientOrderRequest handed to
`exchange_client.order` ("Ioc" for market, "Gtc" for limit) or the
failure message.  The optional `update_leverage` call between the size
check and the submit does not affect the payload.  There is no
minimum-notional check anywhere in the body. -/
def place_trade (univ : List AssetMeta) (snap : L2Snapshot)
    (request : TradeRequest) : Except String ClientOrderRequest :=
  match headPx snap.levels 0 with
  | some none => Except.error ("Failed to parse bid price")
  | none => Except.error ("No bid price available")
  | some (some best_bid) =>
    match headPx snap.levels 1 with
    | some none => Except.error ("Failed to parse ask price")
    | none => Except.error ("No ask price available")
    | some (some best_ask) =>
      let current_price := if request.is_buy then best_ask else best_bid
      match univ.find? (fun a => decide (a.name = request.asset)) with
      | none => Except.error ("Asset metadata not found")
      | some asset_meta =>
        let size :=
          roundToDecimals (request.usd_value / current_price)
            asset_meta.szDecimals
        if size = 0 then
          Except.error ("Order size too small after rounding")
        else
          match request.order_type with
          | OrderType.Market =>
              let market_price :=
                if request.is_buy then best_ask else best_bid
              Except.ok
                { asset := request.asset
                  is_buy := request.is_buy
                  reduce_only := request.reduce_only
                  limit_px := market_price
                  sz := size
                  tif := "Ioc" }
          | OrderType.Limit =>
              match request.price with
              | some price =>
                  Except.ok
                    { asset := request.asset
                      is_buy := request.is_buy
                      reduce_only := request.reduce_only
                      limit_px := price
                      sz := size
                      tif := "Gtc" }
              | none => Except.error ("Limit orders require a price")

end HyperliquidService

/-- A crossed book: both sides non-empty and best ask not above best bid
(the spec demands `best_bid.price < best_ask.price`). -/
def isCrossed (b : OrderBook) : Bool :=
  match b.bids.head?, b.asks.head? with
  | some bb, some ba => decide (ba.price ≤ bb.price)
  | _, _ => false

/-- No duplicate prices within a side. -/
def DistinctPrices (side : List Level) : Prop :=
  (side.map Level.price).Pairwise (fun p q => p ≠ q)

/-- Strictly descending by price. -/
def StrictDesc (side : List Level) : Prop :=
  side.Pairwise (fun a b => b.price < a.price)

/-- Strictly ascending by price. -/
def StrictAsc (side : List Level) : Prop :=
  side.Pairwise (fun a b => a.price < b.price)

instance (side : List Level) : Decidable (DistinctPrices side) :=
  inferInstanceAs (Decidable (Pairwise _ _))

instance (side : List Level) : Decidable (StrictDesc side) :=
  inferInstanceAs (Decidable (Pairwise _ _))

instance (side : List Level) : Decidable (StrictAsc side) :=
  inferInstanceAs (Decidable (Pairwise _ _))

/-- Concrete input: snapshot bids [(100,1)], asks [(101,1)]. -/
def snapC1 : SnapContents :=
  ⟨[⟨some 100, some 1⟩], [⟨some 101, some 1⟩]⟩

/-- Concrete input: a delta inserting bid (102,1), which crosses the ask
at 101. -/
def updC1 : UpdateContents :=
  ⟨[⟨some 102, some 1⟩], []⟩

/-- The crossed book the dYdX update path materializes from snapC1/updC1. -/
def bookC1 : OrderBook :=
  ⟨"dYdX", "BTC", [⟨102, 1, 1⟩, ⟨100, 1, 1⟩], [⟨101, 1, 1⟩], 1⟩

/-- Concrete input: a cached stream book held by the Hyperliquid adapter. -/
def bookHLcached : OrderBook :=
  ⟨"Hyperliquid", "BTC", [⟨9, 1, 1⟩], [⟨12, 1, 1⟩], 3⟩

/-- Concrete input: a fresh REST l2_snapshot response. -/
def snapC5 : L2Snapshot :=
  ⟨[[⟨some 10, some 1, 1⟩], [⟨some 11, some 1, 1⟩]], 7⟩

/-- The book HyperliquidAggregator::get_orderbook builds from snapC5. -/
def bookC5 : OrderBook :=
  ⟨"Hyperliquid", "BTC", [⟨10, 1, 1⟩], [⟨11, 1, 1⟩], 7⟩

/-! ### Helper lemmas about the dYdX book reconstruction -/

/-- applyDeltaSide on a fully parsed delta entry, with the projections
reduced. -/
theorem applyDeltaSide_eq (xs : List Level) (p s : ℚ) :
    applyDeltaSide xs ⟨some p, some s⟩
      = if s = 0 then xs.filter (fun l => decide (l.price ≠ p))
        else if xs.any (fun l => decide (l.price = p)) then
          setFirstSize p s xs
        else xs ++ [⟨p, s, 1⟩] := rfl

theorem map_price_setFirstSize (p s : ℚ) (xs : List Level) :
    (setFirstSize p s xs).map Level.price = xs.map Level.price := by
  induction xs with
  | nil => rfl
  | cons l ls ih =>
      by_cases h : l.price = p
      · simp [setFirstSize, h]
      · simp [setFirstSize, h, ih]

theorem mem_setFirstSize {p s : ℚ} {xs : List Level} {l : Level}
    (h : l ∈ setFirstSize p s xs) :
    l ∈ xs ∨ ∃ l0 ∈ xs, l = { l0 with size := s } := by
  induction xs with
  | nil => simp [setFirstSize] at h
  | cons a as ih =>
      by_cases hp : a.price = p
      · simp only [setFirstSize, if_pos hp, mem_cons] at h
        rcases h with h | h
        · exact Or.inr ⟨a, mem_cons_self a as, h⟩
        · exact Or.inl (mem_cons_of_mem a h)
      · simp only [setFirstSize, if_neg hp, mem_cons] at h
        rcases h with h | h
        · exact Or.inl (h ▸ mem_cons_self a as)
        · rcases ih h with h1 | ⟨l0, hl0, he⟩
          · exact Or.inl (mem_cons_of_mem a h1)
          · exact Or.inr ⟨l0, mem_cons_of_mem a hl0, he⟩

theorem setFirstSize_spec {p s : ℚ} {xs : List Level}
    (hd : DistinctPrices xs) (hx : ∃ l ∈ xs, l.price = p) :
    (∃ l ∈ setFirstSize p s xs, l.price = p ∧ l.size = s) ∧
    (∀ l ∈ setFirstSize p s xs, l.price = p → l.size = s) := by
  induction xs with
  | nil => simp at hx
  | cons a as ih =>
      rw [DistinctPrices, map_cons, pairwise_cons] at hd
      by_cases hp : a.price = p
      · constructor
        · exact ⟨{ a with size := s }, by simp [setFirstSize, hp], hp, rfl⟩
        · intro l hl hlp
          simp only [setFirstSize, if_pos hp, mem_cons] at hl
          rcases hl with rfl | hl
          · rfl
          · exact absurd (hp.trans hlp.symm)
              (hd.1 l.price (mem_map_of_mem Level.price hl))
      · have hx' : ∃ l ∈ as, l.price = p := by
          rcases hx with ⟨l, hl, hlp⟩
          rcases mem_cons.mp hl with rfl | hl
          · exact absurd hlp hp
          · exact ⟨l, hl, hlp⟩
        have hd' : DistinctPrices as := hd.2
        rcases ih hd' hx' with ⟨⟨l1, hl1, hl1p, hl1s⟩, hall⟩
        constructor
        · refine ⟨l1, ?_, hl1p, hl1s⟩
          simp [setFirstSize, if_neg hp, mem_cons, hl1]
        · intro l hl hlp
          simp only [setFirstSize, if_neg hp, mem_cons] at hl
          rcases hl with rfl | hl
          · exact absurd hlp hp
          · exact hall l hl hlp

/-- A non-zero delta leaves exactly size `s` at price `p` (before the
re-sort), provided the side has no duplicate prices. -/
theorem applyDeltaSide_replace {xs : List Level} {p s : ℚ} (hs : s ≠ 0)
    (hd : DistinctPrices xs) :
    (∃ l ∈ applyDeltaSide xs ⟨some p, some s⟩, l.price = p ∧ l.size = s)
    ∧ ∀ l ∈ applyDeltaSide xs ⟨some p, some s⟩, l.price = p → l.size = s := by
  rw [applyDeltaSide_eq, if_neg hs]
  by_cases ha : xs.any (fun l => decide (l.price = p))
  · rw [if_pos ha]
    have hx : ∃ l ∈ xs, l.price = p := by
      rcases any_eq_true.mp ha with ⟨l, hl, hlp⟩
      exact ⟨l, hl, of_decide_eq_true hlp⟩
    exact setFirstSize_spec hd hx
  · rw [if_neg ha]
    constructor
    · exact ⟨⟨p, s, 1⟩, mem_append.mpr (Or.inr (mem_singleton.mpr rfl)),
        rfl, rfl⟩
    · intro l hl hlp
      rcases mem_append.mp hl with h1 | h2
      · exact absurd (any_eq_true.mpr ⟨l, h1, by simp [hlp]⟩) ha
      · rw [mem_singleton.mp h2]

theorem distinct_filter {f : Level → Bool} {xs : List Level}
    (hd : DistinctPrices xs) : DistinctPrices (xs.filter f) := by
  unfold DistinctPrices at hd ⊢
  exact Pairwise.sublist ((filter_sublist xs).map Level.price) hd

theorem distinct_applyDeltaSide {xs : List Level} (e : DeltaEntry)
    (hd : DistinctPrices xs) : DistinctPrices (applyDeltaSide xs e) := by
  unfold applyDeltaSide
  by_cases hz : e.size.getD 0 = 0
  · rw [if_pos hz]; exact distinct_filter hd
  · rw [if_neg hz]
    by_cases ha : xs.any (fun l => decide (l.price = e.price.getD 0))
    · rw [if_pos ha]
      unfold DistinctPrices at hd ⊢
      rw [map_price_setFirstSize]; exact hd
    · rw [if_neg ha]
      unfold DistinctPrices at hd ⊢
      rw [map_append, pairwise_append]
      refine ⟨hd, pairwise_singleton _ _, ?_⟩
      intro q hq p' hp'
      simp only [map_cons, map_nil, mem_singleton] at hp'
      subst hp'
      rcases mem_map.mp hq with ⟨l, hl, rfl⟩
      intro hEq
      exact ha (any_eq_true.mpr ⟨l, hl, by simp [hEq]⟩)

theorem distinct_foldl_deltas (es : List DeltaEntry) :
    ∀ {xs : List Level}, DistinctPrices xs →
      DistinctPrices (es.foldl applyDeltaSide xs) := by
  induction es with
  | nil => intro xs h; exact h
  | cons e es ih =>
      intro xs h
      rw [foldl_cons]
      exact ih (distinct_applyDeltaSide e h)

theorem distinct_sortBids {xs : List Level} (hd : DistinctPrices xs) :
    DistinctPrices (sortBids xs) := by
  unfold DistinctPrices at hd ⊢
  have hp : (sortBids xs).map Level.price ~ xs.map Level.price :=
    (perm_insertionSort bidOrder xs).map Level.price
  exact (Perm.pairwise_iff (fun h => Ne.symm h) hp).mpr hd

theorem distinct_sortAsks {xs : List Level} (hd : DistinctPrices xs) :
    DistinctPrices (sortAsks xs) := by
  unfold DistinctPrices at hd ⊢
  have hp : (sortAsks xs).map Level.price ~ xs.map Level.price :=
    (perm_insertionSort askOrder xs).map Level.price
  exact (Perm.pairwise_iff (fun h => Ne.symm h) hp).mpr hd

theorem strict_sortBids {xs : List Level} (hd : DistinctPrices xs) :
    StrictDesc (sortBids xs) := by
  have hs : Pairwise bidOrder (sortBids xs) :=
    sorted_insertionSort bidOrder xs
  have hdp : Pairwise (fun a b : Level => a.price ≠ b.price) (sortBids xs) :=
    pairwise_map.mp (distinct_sortBids hd)
  exact (hs.and hdp).imp (fun h => lt_of_le_of_ne h.1 (Ne.symm h.2))

theorem strict_sortAsks {xs : List Level} (hd : DistinctPrices xs) :
    StrictAsc (sortAsks xs) := by
  have hs : Pairwise askOrder (sortAsks xs) :=
    sorted_insertionSort askOrder xs
  have hdp : Pairwise (fun a b : Level => a.price ≠ b.price) (sortAsks xs) :=
    pairwise_map.mp (distinct_sortAsks hd)
  exact (hs.and hdp).imp (fun h => lt_of_le_of_ne h.1 h.2)

theorem distinct_of_strictDesc {xs : List Level} (h : StrictDesc xs) :
    DistinctPrices xs := by
  unfold DistinctPrices
  rw [pairwise_map]
  exact h.imp (fun hlt => ne_of_gt hlt)

theorem distinct_of_strictAsc {xs : List Level} (h : StrictAsc xs) :
    DistinctPrices xs := by
  unfold DistinctPrices
  rw [pairwise_map]
  exact h.imp (fun hlt => ne_of_lt hlt)

theorem mem_sortBids {xs : List Level} {l : Level} :
    l ∈ sortBids xs ↔ l ∈ xs :=
  (perm_insertionSort bidOrder xs).mem_iff

theorem mem_sortAsks {xs : List Level} {l : Level} :
    l ∈ sortAsks xs ↔ l ∈ xs :=
  (perm_insertionSort askOrder xs).mem_iff

theorem sizes_setFirstSize {p s : ℚ} {xs : List Level} (hs : s ≠ 0)
    (h : ∀ l ∈ xs, l.size ≠ 0) : ∀ l ∈ setFirstSize p s xs, l.size ≠ 0 := by
  intro l hl
  rcases mem_setFirstSize hl with h1 | ⟨l0, _, rfl⟩
  · exact h l h1
  · simpa using hs

theorem sizes_applyDeltaSide {xs : List Level} (e : DeltaEntry)
    (h : ∀ l ∈ xs, l.size ≠ 0) : ∀ l ∈ applyDeltaSide xs e, l.size ≠ 0 := by
  unfold applyDeltaSide
  by_cases hz : e.size.getD 0 = 0
  · rw [if_pos hz]
    intro l hl
    exact h l (mem_of_mem_filter hl)
  · rw [if_neg hz]
    by_cases ha : xs.any (fun l => decide (l.price = e.price.getD 0))
    · rw [if_pos ha]; exact sizes_setFirstSize hz h
    · rw [if_neg ha]
      intro l hl
      rcases mem_append.mp hl with h1 | h2
      · exact h l h1
      · simp only [mem_singleton] at h2
        subst h2
        simpa using hz

theorem sizes_foldl_deltas (es : List DeltaEntry) :
    ∀ {xs : List Level}, (∀ l ∈ xs, l.size ≠ 0) →
      ∀ l ∈ es.foldl applyDeltaSide xs, l.size ≠ 0 := by
  induction es with
  | nil => intro xs h; exact h
  | cons e es ih =>
      intro xs h
      rw [foldl_cons]
      exact ih (sizes_applyDeltaSide e h)

theorem strictBook_step {b : OrderBook} (c : UpdateContents) (t : ℕ)
    (hb : StrictDesc b.bids) (ha : StrictAsc b.asks) :
    ∃ b', update_orderbook_from_update (some b) c t = some b'
      ∧ StrictDesc b'.bids ∧ StrictAsc b'.asks := by
  refine ⟨_, rfl, ?_, ?_⟩
  · exact strict_sortBids (distinct_foldl_deltas c.bids (distinct_of_strictDesc hb))
  · exact strict_sortAsks (distinct_foldl_deltas c.asks (distinct_of_strictAsc ha))

theorem strictBook_run (ms : List (UpdateContents × ℕ)) :
    ∀ {b : OrderBook}, StrictDesc b.bids → StrictAsc b.asks →
      ∃ b', ms.foldl dydxStep (some b) = some b'
        ∧ StrictDesc b'.bids ∧ StrictAsc b'.asks := by
  induction ms with
  | nil => intro b hb ha; exact ⟨b, rfl, hb, ha⟩
  | cons m ms ih =>
      intro b hb ha
      rcases strictBook_step m.1 m.2 hb ha with ⟨b1, h1, hb1, ha1⟩
      rw [foldl_cons]
      have h1' : dydxStep (some b) m = some b1 := h1
      rw [h1']
      exact ih hb1 ha1

/-! ### Claim theorems -/

/-- Claim C1 is false on the code: applying a wire update that crosses the
book does not drop the book; the crossed book (best bid 102 ≥ best ask
101) is kept and returned by get_orderbook. -/
theorem dydx_crossing_update_keeps_book :
    update_orderbook_from_update
        (some (update_orderbook_from_initial snapC1 "BTC" 0)) updC1 1
      = some bookC1
    ∧ isCrossed bookC1 = true
    ∧ DydxAggregator.get_orderbook "BTC" (some bookC1) = Except.ok bookC1 := by
  refine ⟨by decide, by decide, rfl⟩

/-- Claim C1 (amended): the venue-A update path performs no crossed-book
check at all: applying any wire update to an existing book always yields
a book (the book is never dropped and no resubscribe is forced), and
get_orderbook returns whatever book is stored, crossed or not. -/
theorem dydx_update_never_drops_book (b : OrderBook) (c : UpdateContents)
    (t : ℕ) (sym : String) :
    (update_orderbook_from_update (some b) c t).isSome = true
    ∧ DydxAggregator.get_orderbook sym (some b) = Except.ok b :=
  ⟨rfl, rfl⟩

/-- Claim C7 counterexample: a dYdX snapshot whose bid entry carries the
wire size "0" is materialized as a size-0 level in the book, and the
Hyperliquid level conversion turns an unparseable size into a size-0
level. -/
theorem zero_size_levels_materialized :
    (update_orderbook_from_initial ⟨[⟨some 100, some 0⟩], []⟩ "BTC" 0).bids
      = [⟨100, 0, 1⟩]
    ∧ (⟨100, 0, 1⟩ : Level).size = 0
    ∧ convert_levels_from_book [⟨some 2, none, 3⟩] = [⟨2, 0, 3⟩] := by
  refine ⟨by decide, rfl, by decide⟩

/-- Claim C7 (amended): the venue-A delta path never introduces a
zero-size level (a zero or unparseable size acts as a removal marker),
so delta application preserves freedom from zero sizes; however the
snapshot paths (dYdX initial materialization, Hyperliquid book
conversion) copy wire sizes verbatim, zero included, as the
counterexample shows. -/
theorem dydx_update_preserves_nonzero_sizes (b : OrderBook)
    (c : UpdateContents) (t : ℕ) (b' : OrderBook)
    (hbids : ∀ l ∈ b.bids, l.size ≠ 0) (hasks : ∀ l ∈ b.asks, l.size ≠ 0)
    (hb : update_orderbook_from_update (some b) c t = some b') :
    (∀ l ∈ b'.bids, l.size ≠ 0) ∧ (∀ l ∈ b'.asks, l.size ≠ 0) := by
  have hb' : b' = { b with
      bids := sortBids (c.bids.foldl applyDeltaSide b.bids)
      asks := sortAsks (c.asks.foldl applyDeltaSide b.asks)
      timestamp := t } := by
    have := hb.symm
    simpa [update_orderbook_from_update] using this
  subst hb'
  constructor
  · intro l hl
    exact sizes_foldl_deltas c.bids hbids l (mem_sortBids.mp hl)
  · intro l hl
    exact sizes_foldl_deltas c.asks hasks l (mem_sortAsks.mp hl)

/-- Witness for the amended C7 theorem at a concrete input. -/
theorem dydx_update_preserves_nonzero_sizes_witness :
    (∀ l ∈ (⟨"dYdX", "BTC", [⟨100, 1, 1⟩], [⟨101, 2, 1⟩], 0⟩ : OrderBook).bids,
        l.size ≠ 0)
    ∧ (∀ l ∈ ([⟨101, 2, 1⟩] : List Level), l.size ≠ 0)
    ∧ ((∀ l ∈ (⟨"dYdX", "BTC", [⟨100, 3, 1⟩], [⟨101, 2, 1⟩], 7⟩ : OrderBook).bids,
        l.size ≠ 0)
      ∧ (∀ l ∈ (⟨"dYdX", "BTC", [⟨100, 3, 1⟩], [⟨101, 2, 1⟩], 7⟩ : OrderBook).asks,
        l.size ≠ 0)) :=
  ⟨by decide, by decide,
    dydx_update_preserves_nonzero_sizes
      ⟨"dYdX", "BTC", [⟨100, 1, 1⟩], [⟨101, 2, 1⟩], 0⟩
      ⟨[⟨some 100, some 3⟩], []⟩ 7
      ⟨"dYdX", "BTC", [⟨100, 3, 1⟩], [⟨101, 2, 1⟩], 7⟩
      (by decide) (by decide) (by decide)⟩

/-- Claim C8 counterexample: after the first failed connection attempt
the Hyperliquid supervisor waits min(1*5, 30) = 5 seconds, not the
claimed min(1s * attempts, 30s) = 1 second. -/
theorem hl_backoff_base_is_five_seconds :
    hl_attempts_step 0 false = 1
    ∧ hl_backoff_wait 1 = 5
    ∧ min (1 * 1) 30 = 1
    ∧ (5 : ℕ) ≠ 1 := by decide

/-- Claim C8 (amended): the Hyperliquid supervisor's backoff wait equals
min(5s * attempts, 30s) — base 5 seconds, not 1 — so consecutive failed
attempts yield non-decreasing waits capped at 30 seconds, and the
attempt counter resets to 0 on a successful subscribe; the dYdX
supervisor instead always waits a constant 1 second before
reconnecting. -/
theorem backoff_schedule (n : ℕ) :
    hl_backoff_wait n = min (n * 5) 30
    ∧ hl_backoff_wait n ≤ hl_backoff_wait (n + 1)
    ∧ hl_backoff_wait n ≤ 30
    ∧ hl_attempts_step n true = 0
    ∧ dydx_reconnect_wait = 1 := by
  refine ⟨rfl, ?_, ?_, rfl, rfl⟩
  · unfold hl_backoff_wait; omega
  · unfold hl_backoff_wait; omega

/-- Claim C9: DydxAggregator::get_leverage_info is exactly the
Hyperliquid lookup relabelled with exchange "dYdX" — the max_leverage is
Hyperliquid's metadata-derived value, and it fails exactly when the
Hyperliquid lookup fails. -/
theorem dydx_leverage_delegates_to_hyperliquid (univ : List AssetMeta)
    (symbol : String) :
    DydxAggregator.get_leverage_info univ symbol
      = (HyperliquidAggregator.get_leverage_info univ symbol).map
          (fun l => ⟨"dYdX", l.symbol, l.max_leverage⟩)
    ∧ ∀ e, (DydxAggregator.get_leverage_info univ symbol = Except.error e
        ↔ HyperliquidAggregator.get_leverage_info univ symbol
            = Except.error e) := by
  constructor
  · unfold DydxAggregator.get_leverage_info
      HyperliquidAggregator.get_leverage_info
    cases h : univ.find? (fun a => decide (a.name = symbol)) with
    | none => simp [Except.map]
    | some asset => simp [Except.map]
  · intro e
    unfold DydxAggregator.get_leverage_info
      HyperliquidAggregator.get_leverage_info
    cases h : univ.find? (fun a => decide (a.name = symbol)) with
    | none => simp
    | some asset => simp

/-- Claim C10: the dYdX adapter's get_market_summary and get_orderbook
ignore their symbol argument entirely — any two symbols read the same
cached cell and return the same value. -/
theorem dydx_queries_ignore_symbol (s1 s2 : String)
    (ob : Option OrderBook) (ms : Option MarketSummary) :
    DydxAggregator.get_orderbook s1 ob = DydxAggregator.get_orderbook s2 ob
    ∧ DydxAggregator.get_market_summary s1 ms
        = DydxAggregator.get_market_summary s2 ms :=
  ⟨rfl, rfl⟩

/-- Claim C5 is false on the code for the Hyperliquid adapter: its
get_orderbook succeeds even when no stream snapshot has been received
(no NotReady failure), and with a cached stream book present it returns
the fresh REST snapshot, not the book maintained by the subscription
stream. -/
theorem hl_get_orderbook_ignores_stream_cache :
    HyperliquidAggregator.get_orderbook none "BTC" snapC5 = Except.ok bookC5
    ∧ HyperliquidAggregator.get_orderbook (some bookHLcached) "BTC" snapC5
        = Except.ok bookC5
    ∧ bookC5 ≠ bookHLcached := by
  refine ⟨rfl, rfl, by decide⟩

/-- Claim C5 (amended): the dYdX adapter's get_orderbook returns the
cached stream book and fails (MarketDataNotFound) when none has been
received yet; the Hyperliquid adapter's get_orderbook instead issues a
fresh REST l2_snapshot call — its result is independent of the cached
stream book and it always succeeds on a delivered response. -/
theorem get_orderbook_cache_semantics (sym : String) (b : OrderBook)
    (st st' : Option OrderBook) (snap : L2Snapshot) :
    DydxAggregator.get_orderbook sym none
      = Except.error (AggregatorError.MarketDataNotFound
          ("No orderbook data available"))
    ∧ DydxAggregator.get_orderbook sym (some b) = Except.ok b
    ∧ HyperliquidAggregator.get_orderbook st sym snap
        = HyperliquidAggregator.get_orderbook st' sym snap
    ∧ ∃ ob, HyperliquidAggregator.get_orderbook st sym snap
        = Except.ok ob :=
  ⟨rfl, rfl, rfl, ⟨_, rfl⟩⟩

/-- Claim C2: a venue-A delta is an absolute replacement on its side: a
zero size removes every level at that price; a non-zero size leaves
exactly that size at that price (replacing in place, inserting when
absent).  `bB` is the book after a bid delta, `bA` after an ask delta. -/
theorem dydx_delta_replaces_absolutely (b : OrderBook) (p s : ℚ) (t : ℕ)
    (bB bA : OrderBook)
    (hdB : DistinctPrices b.bids) (hdA : DistinctPrices b.asks)
    (hbB : update_orderbook_from_update (some b) ⟨[⟨some p, some s⟩], []⟩ t
      = some bB)
    (hbA : update_orderbook_from_update (some b) ⟨[], [⟨some p, some s⟩]⟩ t
      = some bA) :
    ((s = 0 → ∀ l ∈ bB.bids, l.price ≠ p)
      ∧ (s ≠ 0 →
          (∃ l ∈ bB.bids, l.price = p ∧ l.size = s)
          ∧ ∀ l ∈ bB.bids, l.price = p → l.size = s))
    ∧ ((s = 0 → ∀ l ∈ bA.asks, l.price ≠ p)
      ∧ (s ≠ 0 →
          (∃ l ∈ bA.asks, l.price = p ∧ l.size = s)
          ∧ ∀ l ∈ bA.asks, l.price = p → l.size = s)) := by
  have hbB' : bB = { b with
      bids := sortBids (applyDeltaSide b.bids ⟨some p, some s⟩)
      asks := sortAsks b.asks
      timestamp := t } := by
    have := hbB.symm
    simpa [update_orderbook_from_update] using this
  have hbA' : bA = { b with
      bids := sortBids b.bids
      asks := sortAsks (applyDeltaSide b.asks ⟨some p, some s⟩)
      timestamp := t } := by
    have := hbA.symm
    simpa [update_orderbook_from_update] using this
  subst hbB'
  subst hbA'
  constructor
  · constructor
    · intro hs l hl
      have hl' : l ∈ applyDeltaSide b.bids ⟨some p, some s⟩ :=
        mem_sortBids.mp hl
      rw [applyDeltaSide_eq, if_pos hs] at hl'
      exact of_decide_eq_true (mem_filter.mp hl').2
    · intro hs
      rcases @applyDeltaSide_replace b.bids p s hs hdB with
        ⟨⟨l1, hl1, hl1p, hl1s⟩, hall⟩
      constructor
      · exact ⟨l1, mem_sortBids.mpr hl1, hl1p, hl1s⟩
      · intro l hl hlp
        exact hall l (mem_sortBids.mp hl) hlp
  · constructor
    · intro hs l hl
      have hl' : l ∈ applyDeltaSide b.asks ⟨some p, some s⟩ :=
        mem_sortAsks.mp hl
      rw [applyDeltaSide_eq, if_pos hs] at hl'
      exact of_decide_eq_true (mem_filter.mp hl').2
    · intro hs
      rcases @applyDeltaSide_replace b.asks p s hs hdA with
        ⟨⟨l1, hl1, hl1p, hl1s⟩, hall⟩
      constructor
      · exact ⟨l1, mem_sortAsks.mpr hl1, hl1p, hl1s⟩
      · intro l hl hlp
        exact hall l (mem_sortAsks.mp hl) hlp

/-- Witness for C2 at the spec's snapshot-then-replace scenario: bids
[(100,1)], delta (100,2) leaves a single bid of size 2 (and the
symmetric ask delta at 101). -/
theorem dydx_delta_replaces_absolutely_witness :
    DistinctPrices
        (⟨"dYdX", "BTC", [⟨100, 1, 1⟩], [⟨101, 1, 1⟩], 0⟩ : OrderBook).bids
    ∧ ((((2:ℚ) = 0 →
        ∀ l ∈ (⟨"dYdX", "BTC", [⟨100, 2, 1⟩], [⟨101, 1, 1⟩], 5⟩
            : OrderBook).bids,
          l.price ≠ 100)
      ∧ ((2:ℚ) ≠ 0 →
        (∃ l ∈ (⟨"dYdX", "BTC", [⟨100, 2, 1⟩], [⟨101, 1, 1⟩], 5⟩
            : OrderBook).bids,
          l.price = 100 ∧ l.size = 2)
        ∧ ∀ l ∈ (⟨"dYdX", "BTC", [⟨100, 2, 1⟩], [⟨101, 1, 1⟩], 5⟩
            : OrderBook).bids,
            l.price = 100 → l.size = 2))
      ∧ (((2:ℚ) = 0 →
        ∀ l ∈ (⟨"dYdX", "BTC", [⟨100, 1, 1⟩], [⟨100, 2, 1⟩, ⟨101, 1, 1⟩], 5⟩
            : OrderBook).asks,
          l.price ≠ 100)
      ∧ ((2:ℚ) ≠ 0 →
        (∃ l ∈ (⟨"dYdX", "BTC", [⟨100, 1, 1⟩], [⟨100, 2, 1⟩, ⟨101, 1, 1⟩], 5⟩
            : OrderBook).asks,
          l.price = 100 ∧ l.size = 2)
        ∧ ∀ l ∈ (⟨"dYdX", "BTC", [⟨100, 1, 1⟩], [⟨100, 2, 1⟩, ⟨101, 1, 1⟩], 5⟩
            : OrderBook).asks,
            l.price = 100 → l.size = 2))) :=
  ⟨by decide,
    dydx_delta_replaces_absolutely
      ⟨"dYdX", "BTC", [⟨100, 1, 1⟩], [⟨101, 1, 1⟩], 0⟩ 100 2 5
      ⟨"dYdX", "BTC", [⟨100, 2, 1⟩], [⟨101, 1, 1⟩], 5⟩
      ⟨"dYdX", "BTC", [⟨100, 1, 1⟩], [⟨100, 2, 1⟩, ⟨101, 1, 1⟩], 5⟩
      (by decide) (by decide) (by decide) (by decide)⟩

/-- Claim C6: after a well-formed initial snapshot (no duplicate prices
per side once parsed) and any sequence of deltas, the materialized dYdX
book exists, its bids are strictly descending, its asks strictly
ascending, and no price repeats within a side. -/
theorem dydx_book_stays_sorted (snap : SnapContents) (symbol : String)
    (t0 : ℕ) (ms : List (UpdateContents × ℕ))
    (hb : DistinctPrices (snap.bids.filterMap parseSnapEntry))
    (ha : DistinctPrices (snap.asks.filterMap parseSnapEntry)) :
    ∃ b, dydxRun snap symbol t0 ms = some b
      ∧ StrictDesc b.bids ∧ StrictAsc b.asks
      ∧ DistinctPrices b.bids ∧ DistinctPrices b.asks := by
  have h0b : StrictDesc (update_orderbook_from_initial snap symbol t0).bids :=
    strict_sortBids hb
  have h0a : StrictAsc (update_orderbook_from_initial snap symbol t0).asks :=
    strict_sortAsks ha
  rcases strictBook_run ms h0b h0a with ⟨b, hrun, hsb, hsa⟩
  exact ⟨b, hrun, hsb, hsa,
    distinct_of_strictDesc hsb, distinct_of_strictAsc hsa⟩

/-- Witness for C6 at a concrete snapshot and delta sequence. -/
theorem dydx_book_stays_sorted_witness :
    DistinctPrices ((⟨[⟨some 100, some 1⟩, ⟨some 99, some 2⟩],
        [⟨some 101, some 1⟩]⟩ : SnapContents).bids.filterMap parseSnapEntry)
    ∧ DistinctPrices ((⟨[⟨some 100, some 1⟩, ⟨some 99, some 2⟩],
        [⟨some 101, some 1⟩]⟩ : SnapContents).asks.filterMap parseSnapEntry)
    ∧ ∃ b, dydxRun ⟨[⟨some 100, some 1⟩, ⟨some 99, some 2⟩],
          [⟨some 101, some 1⟩]⟩ "BTC" 0
          [(⟨[⟨some 100, some 3⟩], [⟨some 102, some 1⟩]⟩, 5)] = some b
        ∧ StrictDesc b.bids ∧ StrictAsc b.asks
        ∧ DistinctPrices b.bids ∧ DistinctPrices b.asks :=
  ⟨by decide, by decide,
    dydx_book_stays_sorted _ "BTC" 0 _ (by decide) (by decide)⟩

/-- Reduction of place_trade for a market request once both top-of-book
prices parse and the asset metadata is found. -/
theorem place_trade_market_eq (univ : List AssetMeta) (snap : L2Snapshot)
    (r : TradeRequest) (bb ba : ℚ) (am : AssetMeta)
    (hmkt : r.order_type = OrderType.Market)
    (hbid : headPx snap.levels 0 = some (some bb))
    (hask : headPx snap.levels 1 = some (some ba))
    (hfind : univ.find? (fun a => decide (a.name = r.asset)) = some am) :
    HyperliquidService.place_trade univ snap r
      = if roundToDecimals (r.usd_value / (if r.is_buy then ba else bb))
            am.szDecimals = 0
        then Except.error ("Order size too small after rounding")
        else Except.ok ⟨r.asset, r.is_buy, r.reduce_only,
          (if r.is_buy then ba else bb),
          roundToDecimals (r.usd_value / (if r.is_buy then ba else bb))
            am.szDecimals, "Ioc"⟩ := by
  unfold HyperliquidService.place_trade
  rw [hbid, hask, hfind, hmkt]

/-- Claim C3: for a market order the reference price is the best ask for
buys and best bid for sells; the submitted size is usd_value divided by
that reference price, rounded half-away-from-zero to the asset's
size_decimals; a zero rounded size fails without submitting; otherwise
the order is submitted as an IOC limit whose limit price equals that
same top-of-book reference price. -/
theorem place_trade_market_semantics (univ : List AssetMeta)
    (snap : L2Snapshot) (r : TradeRequest) (bb ba ref sz : ℚ)
    (am : AssetMeta)
    (hmkt : r.order_type = OrderType.Market)
    (hbid : headPx snap.levels 0 = some (some bb))
    (hask : headPx snap.levels 1 = some (some ba))
    (hfind : univ.find? (fun a => decide (a.name = r.asset)) = some am)
    (href : ref = if r.is_buy then ba else bb)
    (hpos : 0 < ref)
    (hsz : sz = roundToDecimals (r.usd_value / ref) am.szDecimals) :
    (sz = 0 → HyperliquidService.place_trade univ snap r
        = Except.error ("Order size too small after rounding"))
    ∧ (sz ≠ 0 → HyperliquidService.place_trade univ snap r
        = Except.ok ⟨r.asset, r.is_buy, r.reduce_only, ref, sz, "Ioc"⟩) := by
  subst href
  subst hsz
  rw [place_trade_market_eq univ snap r bb ba am hmkt hbid hask hfind]
  constructor
  · intro h0
    rw [if_pos h0]
  · intro h0
    rw [if_neg h0]

unseal Rat.mul Rat.inv Rat.add Rat.sub in
/-- Witness for C3 at the spec's market-buy sizing scenario: best ask
50000, usd_value 1000, size_decimals 4 gives size 0.02, price 50000,
IOC. -/
theorem place_trade_market_semantics_witness :
    roundToDecimals ((1000 : ℚ) / 50000) 4 = 1 / 50
    ∧ roundToDecimals ((1000 : ℚ) / 50000) 4 ≠ 0
    ∧ (0 : ℚ) < 50000
    ∧ HyperliquidService.place_trade [⟨"BTC", 50, 4⟩]
        ⟨[[⟨some 49999, some 1, 1⟩], [⟨some 50000, some 2, 1⟩]], 9⟩
        ⟨"BTC", true, OrderType.Market, 1000, none, 1, none, false⟩
      = Except.ok ⟨"BTC", true, false, 50000,
          roundToDecimals ((1000 : ℚ) / 50000) 4, "Ioc"⟩ :=
  ⟨by decide, by decide, by decide,
    (place_trade_market_semantics [⟨"BTC", 50, 4⟩]
      ⟨[[⟨some 49999, some 1, 1⟩], [⟨some 50000, some 2, 1⟩]], 9⟩
      ⟨"BTC", true, OrderType.Market, 1000, none, 1, none, false⟩
      49999 50000 50000 (roundToDecimals ((1000 : ℚ) / 50000) 4)
      ⟨"BTC", 50, 4⟩
      rfl rfl rfl (by decide) rfl (by decide) rfl).2 (by decide)⟩

unseal Rat.mul Rat.inv Rat.add Rat.sub in
/-- Claim C4 is false on the code: place_trade has no minimum-notional
check.  A request with usd_value = 1 (below the claimed $10 floor) is
submitted as a normal IOC order instead of failing with
Rejected(BelowMinimum). -/
theorem place_trade_below_minimum_is_submitted :
    ((1 : ℚ) < 10)
    ∧ HyperliquidService.place_trade [⟨"X", 50, 0⟩]
        ⟨[[⟨some 1, some 5, 1⟩], [⟨some 1, some 5, 1⟩]], 0⟩
        ⟨"X", true, OrderType.Market, 1, none, 1, none, false⟩
      = Except.ok ⟨"X", true, false, 1, 1, "Ioc"⟩ :=
  ⟨by decide, by decide⟩

/-- Claim C4 (amended): place_trade enforces no minimum-notional floor.
A market request whose usd_value is below $10 goes through the same
sizing path as any other and is submitted whenever the rounded size is
non-zero; the only smallness guard is the size-rounds-to-zero check. -/
theorem place_trade_no_minimum_notional (univ : List AssetMeta)
    (snap : L2Snapshot) (r : TradeRequest) (bb ba ref sz : ℚ)
    (am : AssetMeta)
    (hlow : r.usd_value < 10)
    (hmkt : r.order_type = OrderType.Market)
    (hbid : headPx snap.levels 0 = some (some bb))
    (hask : headPx snap.levels 1 = some (some ba))
    (hfind : univ.find? (fun a => decide (a.name = r.asset)) = some am)
    (href : ref = if r.is_buy then ba else bb)
    (hpos : 0 < ref)
    (hsz : sz = roundToDecimals (r.usd_value / ref) am.szDecimals)
    (hnz : sz ≠ 0) :
    HyperliquidService.place_trade univ snap r
      = Except.ok ⟨r.asset, r.is_buy, r.reduce_only, ref, sz, "Ioc"⟩ := by
  subst href
  subst hsz
  rw [place_trade_market_eq univ snap r bb ba am hmkt hbid hask hfind,
    if_neg hnz]

unseal Rat.mul Rat.inv Rat.add Rat.sub in
/-- Witness for the amended C4 theorem: a $1 market buy with best ask 1
and size_decimals 0 is submitted with size 1. -/
theorem place_trade_no_minimum_notional_witness :
    ((1 : ℚ) < 10)
    ∧ roundToDecimals ((1 : ℚ) / 1) 0 ≠ 0
    ∧ (0 : ℚ) < 1
    ∧ HyperliquidService.place_trade [⟨"Y", 50, 0⟩]
        ⟨[[⟨some 1, some 5, 1⟩], [⟨some 1, some 5, 1⟩]], 0⟩
        ⟨"Y", true, OrderType.Market, 1, none, 1, none, false⟩
      = Except.ok ⟨"Y", true, false, 1, roundToDecimals ((1 : ℚ) / 1) 0,
          "Ioc"⟩ :=
  ⟨by decide, by decide, by decide,
    place_trade_no_minimum_notional [⟨"Y", 50, 0⟩]
      ⟨[[⟨some 1, some 5, 1⟩], [⟨some 1, some 5, 1⟩]], 0⟩
      ⟨"Y", true, OrderType.Market, 1, none, 1, none, false⟩
      1 1 1 (roundToDecimals ((1 : ℚ) / 1) 0) ⟨"Y", 50, 0⟩
      (by decide) rfl rfl rfl (by decide) rfl (by decide) rfl (by decide)⟩
